import Mathlib

/-!
# ravendb-go-client: command layer

A shallow embedding of three commands of the client
(`head_document_command.go`, `get_database_names_operation.go`,
`reset_index_operation.go`) and the properties of their request building,
response processing and construction-time guards.

Conventions of the embedding:

* a Go `*string` is an `Option String` (`none` is the nil pointer), a Go
  `[]string` is an `Option (List String)` (`none` is the nil slice);
* a Go `error` result is an `Option GoError` (`none` is the nil error);
* a method with a pointer receiver that assigns fields returns the updated
  receiver next to its Go results;
* a call that may abort with a Go panic returns an `Outcome`.
-/

namespace Ravendb

/-! ## Errors and outcomes -/

/-- Error values that reach the command layer. `InvalidResponse`,
`ValidationError` and `TransportError` are the classes of the error taxonomy;
the two `Json...` values are the errors of Go's `encoding/json`
(`*json.SyntaxError` and `*json.UnmarshalTypeError`). -/
inductive GoError where
  | InvalidResponse
  | ValidationError
  | TransportError
  | JsonSyntaxError
  | JsonUnmarshalTypeError
  deriving DecidableEq, Repr

/-- Result of a Go call: a value, a returned error, or a panic that aborts the
call with a message. -/
inductive Outcome (α : Type) where
  | ok (a : α)
  | error (e : GoError)
  | panic (msg : String)
  deriving DecidableEq, Repr

/-- Sequencing of outcomes: an error or a panic of the first call ends the
computation. -/
def Outcome.bind {α β : Type} (x : Outcome α) (f : α → Outcome β) : Outcome β :=
  match x with
  | .ok a => f a
  | .error e => .error e
  | .panic msg => .panic msg

/-- Modelled from the spec: `panicIf` is not among the sources; the design
notes call these guards "argument-guard panics for invalid input (e.g., empty
id/name)", an unrecoverable abort. When the condition holds the call panics
with the given message, otherwise it returns normally. -/
def panicIf (cond : Bool) (msg : String) : Outcome Unit :=
  if cond then .panic msg else .ok ()

/-- Modelled from the spec: `throwInvalidResponse` is not among the sources;
it yields the error of the `InvalidResponse` class. -/
def throwInvalidResponse : GoError := GoError.InvalidResponse

/-! ## HTTP data -/

/-- Header fields as seen through `Header.Get` and `Header.Set`: one value per
(canonical) field name. -/
abbrev Header := List (String × String)

/-- The method `Header.Set(key, value)`: the field holds exactly `value` afterwards. -/
def Header.Set (h : Header) (key value : String) : Header :=
  (key, value) :: h.filter (fun kv => kv.1 != key)

/-- The value of a header field, `none` when the field is absent. -/
def Header.Lookup (h : Header) (key : String) : Option String :=
  List.lookup key h

/-- The parts of `http.Request` the commands set. -/
structure HttpRequest where
  Method : String
  URL : String
  Header : Header
  deriving DecidableEq, Repr

/-- The parts of `http.Response` the commands read. -/
structure HttpResponse where
  StatusCode : Int
  Header : Header
  deriving DecidableEq, Repr

/-- The constant `http.StatusNotModified`. -/
def http_StatusNotModified : Int := 304

/-- The constant `http.StatusNotFound`. -/
def http_StatusNotFound : Int := 404

/-- Modelled from the spec: `NewHttpHead` is not among the sources; it builds
the `HEAD` request for the given URL, with no header field set. It is the
builder the head-document command is used with. -/
def NewHttpHead (url : String) : Except GoError HttpRequest :=
  .ok { Method := "HEAD", URL := url, Header := [] }

/-- Modelled from the spec: `NewHttpGet` is not among the sources; it builds
the `GET` request for the given URL, with no header field set. It is the
builder the list-database-names command is used with. -/
def NewHttpGet (url : String) : Except GoError HttpRequest :=
  .ok { Method := "GET", URL := url, Header := [] }

/-- Modelled from the spec: `NewHttpReset` is not among the sources; it builds
the request with the non-standard `RESET` verb for the given URL. It is the
builder the reset-index command is used with. -/
def NewHttpReset (url : String) : Except GoError HttpRequest :=
  .ok { Method := "RESET", URL := url, Header := [] }

/-- Modelled from the spec: `ServerNode` is not among the sources; the data
model gives it a base URL, a database name and a cluster tag. -/
structure ServerNode where
  url : String
  database : String
  clusterTag : String
  deriving DecidableEq, Repr

/-- The function `ServerNode.getUrl`. -/
def ServerNode.getUrl (node : ServerNode) : String := node.url

/-- The function `ServerNode.getDatabase`. -/
def ServerNode.getDatabase (node : ServerNode) : String := node.database

/-- Modelled from the spec: a cache entry, with its fingerprint, change vector,
payload and fetch time. -/
structure CacheEntry where
  fingerprint : String
  changeVector : String
  payload : String
  fetchedAt : Nat
  deriving DecidableEq, Repr

/-- Modelled from the spec: `HttpCache` is not among the sources; a store of
cache entries. The commands below receive it and never read it. -/
structure HttpCache where
  entries : List CacheEntry
  deriving DecidableEq, Repr

/-- Modelled from the spec: the disposal instruction a command returns from
`processResponse`; `AUTOMATIC` is the default, `MANUAL` leaves the release of
the transport resources to the caller. -/
inductive ResponseDisposeHandling where
  | AUTOMATIC
  | MANUAL
  deriving DecidableEq, Repr

/-- The constant `ResponseDisposeHandling_AUTOMATIC`. -/
def ResponseDisposeHandling_AUTOMATIC : ResponseDisposeHandling :=
  ResponseDisposeHandling.AUTOMATIC

/-- Modelled from the spec: `RavenCommandBase` is not among the sources; of the
shared bookkeeping the sources touch only the read-request flag. The value
`NewRavenCommandBase()` returns is a parameter of the constructors below. -/
structure RavenCommandBase where
  IsReadRequest : Bool
  deriving DecidableEq, Repr

/-! ## `head_document_command.go` -/

/-- The type `HeadDocumentCommand`; `Result` is the change vector. -/
structure HeadDocumentCommand where
  RavenCommandBase : RavenCommandBase
  _id : String
  _changeVector : Option String
  Result : Option String
  deriving DecidableEq, Repr

/-- The function `NewHeadDocumentCommand`; `base` is what `NewRavenCommandBase()` returns. -/
def NewHeadDocumentCommand (base : RavenCommandBase) (id : String)
    (changeVector : Option String) : Outcome HeadDocumentCommand :=
  (panicIf (id == "") "id cannot be empty").bind fun _ =>
  .ok { RavenCommandBase := base, _id := id, _changeVector := changeVector, Result := none }

/-- The function `HeadDocumentCommand.createRequest`. The request builder
`NewHttpHead` and `UrlUtils_escapeDataString` are not among the sources and are
parameters. -/
def HeadDocumentCommand.createRequest (newHttpHead : String → Except GoError HttpRequest)
    (UrlUtils_escapeDataString : String → String)
    (c : HeadDocumentCommand) (node : ServerNode) : Except GoError HttpRequest :=
  let url := node.getUrl ++ "/databases/" ++ node.getDatabase ++ "/docs?id=" ++
    UrlUtils_escapeDataString c._id
  match newHttpHead url with
  | .error err => .error err
  | .ok request =>
    match c._changeVector with
    | some changeVector =>
      .ok { request with Header := request.Header.Set "If-None-Match" changeVector }
    | none => .ok request

/-- The function `HeadDocumentCommand.processResponse`; the result is the disposal mode, the
error and the command after the call. `HttpExtensions_getRequiredEtagHeader` is
not among the sources and is a parameter: it returns a change vector and an
error. -/
def HeadDocumentCommand.processResponse
    (HttpExtensions_getRequiredEtagHeader : HttpResponse → Option String × Option GoError)
    (c : HeadDocumentCommand) (cache : HttpCache) (response : HttpResponse) (url : String) :
    ResponseDisposeHandling × Option GoError × HeadDocumentCommand :=
  let statusCode := response.StatusCode
  if statusCode = http_StatusNotModified then
    (ResponseDisposeHandling_AUTOMATIC, none, { c with Result := c._changeVector })
  else if statusCode = http_StatusNotFound then
    (ResponseDisposeHandling_AUTOMATIC, none, { c with Result := none })
  else
    let r := HttpExtensions_getRequiredEtagHeader response
    (ResponseDisposeHandling_AUTOMATIC, r.2, { c with Result := r.1 })

/-- Modelled from the spec: `HttpExtensions_getRequiredEtagHeader` is not among
the sources. The response must carry the header with the new change vector:
when the field `etagHeader` is present its value is returned with no error,
when it is absent the call fails with `InvalidResponse`. -/
def HttpExtensions_getRequiredEtagHeader (etagHeader : String) (response : HttpResponse) :
    Option String × Option GoError :=
  match response.Header.Lookup etagHeader with
  | some v => (some v, none)
  | none => (none, some GoError.InvalidResponse)

/-- The function `HeadDocumentCommand.setResponse`; the result is the error, the command
after the call and the lines written to standard output. -/
def HeadDocumentCommand.setResponse (c : HeadDocumentCommand) (response : String)
    (fromCache : Bool) : Option GoError × HeadDocumentCommand × List String :=
  if response != "" then
    (some throwInvalidResponse, c, [])
  else
    (none, { c with Result := none }, ["HeadDocumentCommand.setResponse: clearing Result\n"])

/-! ## A model of `encoding/json` decoding into `GetDatabaseNamesResult` -/

/-- A JSON value as Go's scanner accepts it; a number keeps its text. -/
inductive Json where
  | null
  | bool (b : Bool)
  | number (text : String)
  | string (s : String)
  | array (elems : List Json)
  | object (members : List (String × Json))

/-- The double quote character. -/
def chQuote : Char := Char.ofNat 34

/-- The backslash character. -/
def chBackslash : Char := Char.ofNat 92

/-- The opening bracket of an array. -/
def chLBracket : Char := Char.ofNat 91

/-- The closing bracket of an array. -/
def chRBracket : Char := Char.ofNat 93

/-- The opening brace of an object. -/
def chLBrace : Char := Char.ofNat 123

/-- The closing brace of an object. -/
def chRBrace : Char := Char.ofNat 125

/-- The replacement character U+FFFD. -/
def chReplacement : Char := Char.ofNat 65533

/-- JSON white space: space, tab, carriage return, line feed. -/
def isJsonSpace (c : Char) : Bool :=
  c == ' ' || c == '\t' || c == '\r' || c == '\n'

/-- Drops leading white space. -/
def skipSpace : List Char → List Char
  | [] => []
  | c :: cs => if isJsonSpace c then skipSpace cs else c :: cs

/-- Drops leading decimal digits. -/
def skipDigits : List Char → List Char
  | [] => []
  | c :: cs => if c.isDigit then skipDigits cs else c :: cs

/-- One or more decimal digits; the result is the rest of the input. -/
def scanDigits1 : List Char → Option (List Char)
  | [] => none
  | c :: cs => if c.isDigit then some (skipDigits cs) else none

/-- The integer part of a number: a single `0`, or digits not starting with `0`. -/
def scanIntPart : List Char → Option (List Char)
  | [] => none
  | c :: cs => if c == '0' then some cs else scanDigits1 (c :: cs)

/-- The optional fraction of a number. -/
def scanFrac : List Char → Option (List Char)
  | [] => some []
  | c :: cs => if c == '.' then scanDigits1 cs else some (c :: cs)

/-- The optional exponent of a number. -/
def scanExp : List Char → Option (List Char)
  | [] => some []
  | c :: cs =>
    if c == 'e' || c == 'E' then
      match cs with
      | [] => none
      | s :: cs2 => if s == '+' || s == '-' then scanDigits1 cs2 else scanDigits1 (s :: cs2)
    else some (c :: cs)

/-- A JSON number at the head of the input; the result is the rest. -/
def scanNumber (cs : List Char) : Option (List Char) :=
  let body := match cs with
    | [] => []
    | c :: r => if c == '-' then r else c :: r
  (scanIntPart body).bind fun r1 => (scanFrac r1).bind scanExp

/-- The value of a hexadecimal digit. -/
def hexDigit (c : Char) : Option Nat :=
  if '0' ≤ c ∧ c ≤ '9' then some (c.toNat - 48)
  else if 'a' ≤ c ∧ c ≤ 'f' then some (c.toNat - 87)
  else if 'A' ≤ c ∧ c ≤ 'F' then some (c.toNat - 55)
  else none

/-- The code unit written by four hexadecimal digits. -/
def hex4 (a b c d : Char) : Option Nat :=
  (hexDigit a).bind fun x => (hexDigit b).bind fun y => (hexDigit c).bind fun z =>
    (hexDigit d).map fun w => ((x * 16 + y) * 16 + z) * 16 + w

/-- The character a one-letter escape stands for. -/
def unescapeChar (c : Char) : Option Char :=
  if c == chQuote then some chQuote
  else if c == chBackslash then some chBackslash
  else if c == '/' then some '/'
  else if c == 'b' then some (Char.ofNat 8)
  else if c == 'f' then some (Char.ofNat 12)
  else if c == 'n' then some '\n'
  else if c == 'r' then some '\r'
  else if c == 't' then some '\t'
  else none

/-- The output so far (reversed), with a replacement character for a high
surrogate that found no partner. -/
def flushSurrogate (hi : Option Nat) (acc : List Char) : List Char :=
  match hi with
  | some _ => chReplacement :: acc
  | none => acc

/-- The body of a string literal, after the opening quote: the decoded text
and the rest of the input. `hi` is a high surrogate escape waiting for its low
partner; `acc` is the decoded text so far, reversed. -/
def scanString : List Char → Option Nat → List Char → Option (String × List Char)
  | [], _, _ => none
  | c :: cs, hi, acc =>
    if c == chQuote then some (String.mk (flushSurrogate hi acc).reverse, cs)
    else if c == chBackslash then
      match cs with
      | [] => none
      | e :: rest =>
        if e == 'u' then
          match rest with
          | a :: b :: x :: d :: rest4 =>
            match hex4 a b x d with
            | none => none
            | some r =>
              if 0xD800 ≤ r ∧ r < 0xDC00 then
                scanString rest4 (some r) (flushSurrogate hi acc)
              else if 0xDC00 ≤ r ∧ r < 0xE000 then
                match hi with
                | some h =>
                  scanString rest4 none
                    (Char.ofNat (0x10000 + (h - 0xD800) * 0x400 + (r - 0xDC00)) :: acc)
                | none => scanString rest4 none (chReplacement :: acc)
              else scanString rest4 none (Char.ofNat r :: flushSurrogate hi acc)
          | _ => none
        else
          match unescapeChar e with
          | some ch => scanString rest none (ch :: flushSurrogate hi acc)
          | none => none
    else if c.toNat < 32 then none
    else scanString cs none (c :: flushSurrogate hi acc)

/-- The text of the prefix of `cs` that was consumed to leave `rest`. -/
def consumedText (cs rest : List Char) : String :=
  String.mk (cs.take (cs.length - rest.length))

mutual
/-- A JSON value at the head of the input, after optional white space. -/
def parseValue : Nat → List Char → Option (Json × List Char)
  | 0, _ => none
  | fuel + 1, cs =>
    match skipSpace cs with
    | [] => none
    | c :: r =>
      if c == chQuote then
        (scanString r none []).map fun p => (Json.string p.1, p.2)
      else if c == chLBracket then
        match skipSpace r with
        | [] => none
        | c2 :: r2 =>
          if c2 == chRBracket then some (Json.array [], r2) else parseElems fuel (c2 :: r2) []
      else if c == chLBrace then
        match skipSpace r with
        | [] => none
        | c2 :: r2 =>
          if c2 == chRBrace then some (Json.object [], r2) else parseMembers fuel (c2 :: r2) []
      else if c == '-' || c.isDigit then
        (scanNumber (c :: r)).map fun r2 => (Json.number (consumedText (c :: r) r2), r2)
      else
        match c :: r with
        | 'n' :: 'u' :: 'l' :: 'l' :: r2 => some (Json.null, r2)
        | 't' :: 'r' :: 'u' :: 'e' :: r2 => some (Json.bool true, r2)
        | 'f' :: 'a' :: 'l' :: 's' :: 'e' :: r2 => some (Json.bool false, r2)
        | _ => none
/-- The elements of an array after its opening bracket, up to and including
the closing bracket; `acc` holds the elements read so far, reversed. -/
def parseElems : Nat → List Char → List Json → Option (Json × List Char)
  | 0, _, _ => none
  | fuel + 1, cs, acc =>
    match parseValue fuel cs with
    | none => none
    | some (v, r) =>
      match skipSpace r with
      | [] => none
      | c :: r2 =>
        if c == ',' then parseElems fuel r2 (v :: acc)
        else if c == chRBracket then some (Json.array (v :: acc).reverse, r2)
        else none
/-- The members of an object after its opening brace, up to and including the
closing brace; `acc` holds the members read so far, reversed. -/
def parseMembers : Nat → List Char → List (String × Json) → Option (Json × List Char)
  | 0, _, _ => none
  | fuel + 1, cs, acc =>
    match skipSpace cs with
    | [] => none
    | c :: r =>
      if c == chQuote then
        match scanString r none [] with
        | none => none
        | some (k, r2) =>
          match skipSpace r2 with
          | [] => none
          | c2 :: r3 =>
            if c2 == ':' then
              match parseValue fuel r3 with
              | none => none
              | some (v, r4) =>
                match skipSpace r4 with
                | [] => none
                | c3 :: r5 =>
                  if c3 == ',' then parseMembers fuel r5 ((k, v) :: acc)
                  else if c3 == chRBrace then some (Json.object ((k, v) :: acc).reverse, r5)
                  else none
            else none
      else none
end

/-- A complete JSON text: one value with optional white space around it (the
bound of Go's scanner on the nesting depth is left out). A
nested call of the parser costs at most two units of fuel and comes after at
least one more consumed character, so twice the length of the input is enough
fuel. -/
def parseJson (data : String) : Option Json :=
  match parseValue (2 * data.length + 2) data.data with
  | none => none
  | some (v, r) => if (skipSpace r).isEmpty then some v else none

/-- Case folding of field names: ASCII letters to upper case, and the two
non-ASCII characters that fold to an ASCII letter (long s, Kelvin sign). -/
def foldRune (c : Char) : Char :=
  if 'a' ≤ c ∧ c ≤ 'z' then Char.ofNat (c.toNat - 32)
  else if c.toNat = 0x17F then 'S'
  else if c.toNat = 0x212A then 'K'
  else c

/-- Whether an object key selects the struct field with the given JSON name:
an exact match, or a match up to case. -/
def keyMatchesField (key field : String) : Bool :=
  key == field || key.data.map foldRune == field.data.map foldRune

/-- The type `GetDatabaseNamesResult` describes response of GetDatabaseNames command. -/
structure GetDatabaseNamesResult where
  Databases : Option (List String)
  deriving DecidableEq, Repr

/-- Decoding one array element into the string at index `i` of the slice
`cur`: a string is stored, `null` leaves the element as it is, any other value
is a type error and leaves the element as it is. The flag reports a type
error. -/
def decodeStringElem (cur : List String) (i : Nat) : Json → String × Bool
  | Json.string s => (s, false)
  | Json.null => (cur.getD i "", false)
  | _ => (cur.getD i "", true)

/-- Decoding the elements of an array, from index `i` on. -/
def decodeStringElems (cur : List String) : Nat → List Json → List String × Bool
  | _, [] => ([], false)
  | i, v :: vs =>
    let e := decodeStringElem cur i v
    let rest := decodeStringElems cur (i + 1) vs
    (e.1 :: rest.1, e.2 || rest.2)

/-- Decoding a value into a `[]string` field holding `cur`: `null` makes the
slice nil, an array makes it the decoded elements (the empty array makes it
empty and non-nil), any other value is a type error and leaves the field. -/
def decodeStringSlice (cur : Option (List String)) : Json → Option (List String) × Bool
  | Json.null => (none, false)
  | Json.array elems =>
    let r := decodeStringElems (cur.getD []) 0 elems
    (some r.1, r.2)
  | _ => (cur, true)

/-- Decoding the members of an object into the struct, in order: a member
whose key selects `Databases` is decoded into that field, others are skipped. -/
def decodeMembers (res : GetDatabaseNamesResult) (err : Bool) :
    List (String × Json) → GetDatabaseNamesResult × Bool
  | [] => (res, err)
  | (k, v) :: ms =>
    if keyMatchesField k "Databases" then
      let r := decodeStringSlice res.Databases v
      decodeMembers { res with Databases := r.1 } (err || r.2) ms
    else decodeMembers res err ms

/-- Decoding a value into the struct: an object fills the fields, `null`
changes nothing, any other value is a type error. -/
def decodeResult (res : GetDatabaseNamesResult) : Json → GetDatabaseNamesResult × Bool
  | Json.object members => decodeMembers res false members
  | Json.null => (res, false)
  | _ => (res, true)

/-- The function `json.Unmarshal(data, &res)` for `res` of type `GetDatabaseNamesResult`:
the struct after the call and the error. Text that is not valid JSON is a
`*json.SyntaxError` and leaves the struct; a value of the wrong kind is a
`*json.UnmarshalTypeError`, reported after the rest has been decoded. -/
def json_Unmarshal (data : String) (res : GetDatabaseNamesResult) :
    GetDatabaseNamesResult × Option GoError :=
  match parseJson data with
  | none => (res, some GoError.JsonSyntaxError)
  | some v =>
    let r := decodeResult res v
    (r.1, if r.2 then some GoError.JsonUnmarshalTypeError else none)

/-! ## `get_database_names_operation.go` -/

/-- The function `strconv.Itoa`: the decimal digits of the magnitude, after a minus sign
for a negative number. -/
def strconv_Itoa (i : Int) : String :=
  if i < 0 then "-" ++ Nat.repr i.natAbs else Nat.repr i.natAbs

/-- The type `GetDatabaseNamesOperation`. -/
structure GetDatabaseNamesOperation where
  _start : Int
  _pageSize : Int
  deriving DecidableEq, Repr

/-- The function `NewGetDatabaseNamesOperation`. -/
def NewGetDatabaseNamesOperation (_start : Int) (_pageSize : Int) : GetDatabaseNamesOperation :=
  { _start := _start, _pageSize := _pageSize }

/-- The type `GetDatabaseNamesCommand`. -/
structure GetDatabaseNamesCommand where
  RavenCommandBase : RavenCommandBase
  _start : Int
  _pageSize : Int
  Result : Option (List String)
  deriving DecidableEq, Repr

/-- The function `NewGetDatabaseNamesCommand`; `base` is what `NewRavenCommandBase()`
returns. -/
def NewGetDatabaseNamesCommand (base : RavenCommandBase) (_start : Int) (_pageSize : Int) :
    GetDatabaseNamesCommand :=
  let cmd : GetDatabaseNamesCommand :=
    { RavenCommandBase := base, _start := _start, _pageSize := _pageSize, Result := none }
  { cmd with RavenCommandBase := { cmd.RavenCommandBase with IsReadRequest := true } }

/-- The function `GetDatabaseNamesOperation.getCommand`; the conventions are not read. -/
def GetDatabaseNamesOperation.getCommand {DocumentConventions : Type}
    (base : RavenCommandBase) (o : GetDatabaseNamesOperation)
    (conventions : DocumentConventions) : GetDatabaseNamesCommand :=
  NewGetDatabaseNamesCommand base o._start o._pageSize

/-- The function `GetDatabaseNamesCommand.createRequest`. The request builder
`NewHttpGet` is not among the sources and is a parameter. -/
def GetDatabaseNamesCommand.createRequest (newHttpGet : String → Except GoError HttpRequest)
    (c : GetDatabaseNamesCommand) (node : ServerNode) : Except GoError HttpRequest :=
  let url := node.getUrl ++ "/databases?start=" ++ strconv_Itoa c._start ++ "&pageSize=" ++
    strconv_Itoa c._pageSize ++ "&namesOnly=true"
  newHttpGet url

/-- The function `GetDatabaseNamesCommand.setResponse`; the result is the error and the
command after the call. `unmarshal` is the call `json.Unmarshal(data, &res)`. -/
def GetDatabaseNamesCommand.setResponse
    (unmarshal : String → GetDatabaseNamesResult → GetDatabaseNamesResult × Option GoError)
    (c : GetDatabaseNamesCommand) (response : String) (fromCache : Bool) :
    Option GoError × GetDatabaseNamesCommand :=
  if response == "" then
    (some throwInvalidResponse, c)
  else
    let res : GetDatabaseNamesResult := { Databases := none }
    match unmarshal response res with
    | (_, some err) => (some err, c)
    | (res, none) => (none, { c with Result := res.Databases })

/-! ## `reset_index_operation.go` -/

/-- The type `ResetIndexCommand`. -/
structure ResetIndexCommand where
  RavenCommandBase : RavenCommandBase
  _indexName : String
  deriving DecidableEq, Repr

/-- The type `ResetIndexOperation`. -/
structure ResetIndexOperation where
  _indexName : String
  Command : Option ResetIndexCommand
  deriving DecidableEq, Repr

/-- The function `NewResetIndexOperation`. -/
def NewResetIndexOperation (indexName : String) : Outcome ResetIndexOperation :=
  (panicIf (indexName == "") "indexName cannot be empty").bind fun _ =>
  .ok { _indexName := indexName, Command := none }

/-- The function `NewResetIndexCommand`; `base` is what `NewRavenCommandBase()` returns. -/
def NewResetIndexCommand (base : RavenCommandBase) (indexName : String) :
    Outcome ResetIndexCommand :=
  (panicIf (indexName == "") "indexName cannot be empty").bind fun _ =>
  .ok { RavenCommandBase := base, _indexName := indexName }

/-- The function `ResetIndexOperation.getCommand`; the result is the command and the
operation after the call. The conventions are not read. -/
def ResetIndexOperation.getCommand {DocumentConventions : Type}
    (base : RavenCommandBase) (o : ResetIndexOperation) (conventions : DocumentConventions) :
    Outcome (ResetIndexCommand × ResetIndexOperation) :=
  (NewResetIndexCommand base o._indexName).bind fun cmd =>
  .ok (cmd, { o with Command := some cmd })

/-- The function `ResetIndexCommand.createRequest`. The request builder
`NewHttpReset` and `UrlUtils_escapeDataString` are not among the sources and
are parameters. -/
def ResetIndexCommand.createRequest (newHttpReset : String → Except GoError HttpRequest)
    (UrlUtils_escapeDataString : String → String)
    (c : ResetIndexCommand) (node : ServerNode) : Except GoError HttpRequest :=
  let url := node.getUrl ++ "/databases/" ++ node.getDatabase ++ "/indexes?name=" ++
    UrlUtils_escapeDataString c._indexName
  newHttpReset url

/-! ## Shared lemmas -/

/-- The guard passes on a false condition. -/
theorem panicIf_false (msg : String) : panicIf false msg = Outcome.ok () := rfl

/-- The guard panics on a true condition. -/
theorem panicIf_true (msg : String) : panicIf true msg = Outcome.panic msg := rfl

/-- The function `NewHeadDocumentCommand` returns a command exactly for a non-empty id, and
the command holds the arguments and a nil `Result`. -/
theorem NewHeadDocumentCommand_eq_ok (base : RavenCommandBase) (id : String)
    (changeVector : Option String) (c : HeadDocumentCommand) :
    NewHeadDocumentCommand base id changeVector = Outcome.ok c ↔
      id ≠ "" ∧ c = { RavenCommandBase := base, _id := id, _changeVector := changeVector,
                      Result := none } := by
  unfold NewHeadDocumentCommand
  by_cases h : id = ""
  · subst h
    simp [panicIf, Outcome.bind]
  · have hb : (id == "") = false := by simpa using h
    rw [hb, panicIf_false]
    simp only [Outcome.bind, Outcome.ok.injEq]
    constructor
    · intro hc
      exact ⟨h, hc.symm⟩
    · intro hc
      exact hc.2.symm

/-- The function `NewResetIndexCommand` returns a command exactly for a non-empty name, and
the command holds that name. -/
theorem NewResetIndexCommand_eq_ok (base : RavenCommandBase) (indexName : String)
    (c : ResetIndexCommand) :
    NewResetIndexCommand base indexName = Outcome.ok c ↔
      indexName ≠ "" ∧ c = { RavenCommandBase := base, _indexName := indexName } := by
  unfold NewResetIndexCommand
  by_cases h : indexName = ""
  · subst h
    simp [panicIf, Outcome.bind]
  · have hb : (indexName == "") = false := by simpa using h
    rw [hb, panicIf_false]
    simp only [Outcome.bind, Outcome.ok.injEq]
    constructor
    · intro hc
      exact ⟨h, hc.symm⟩
    · intro hc
      exact hc.2.symm

/-- The function `NewResetIndexOperation` returns an operation exactly for a non-empty
name, and the operation holds that name and no command yet. -/
theorem NewResetIndexOperation_eq_ok (indexName : String) (o : ResetIndexOperation) :
    NewResetIndexOperation indexName = Outcome.ok o ↔
      indexName ≠ "" ∧ o = { _indexName := indexName, Command := none } := by
  unfold NewResetIndexOperation
  by_cases h : indexName = ""
  · subst h
    simp [panicIf, Outcome.bind]
  · have hb : (indexName == "") = false := by simpa using h
    rw [hb, panicIf_false]
    simp only [Outcome.bind, Outcome.ok.injEq]
    constructor
    · intro hc
      exact ⟨h, hc.symm⟩
    · intro hc
      exact hc.2.symm

/-- On status 304 `processResponse` stores the command's own change vector. -/
theorem processResponse_of_notModified
    (getEtag : HttpResponse → Option String × Option GoError)
    (c : HeadDocumentCommand) (cache : HttpCache) (response : HttpResponse) (url : String)
    (hs : response.StatusCode = 304) :
    HeadDocumentCommand.processResponse getEtag c cache response url =
      (ResponseDisposeHandling.AUTOMATIC, none, { c with Result := c._changeVector }) := by
  simp [HeadDocumentCommand.processResponse, hs, http_StatusNotModified,
    ResponseDisposeHandling_AUTOMATIC]

/-- On status 404 `processResponse` stores nil. -/
theorem processResponse_of_notFound
    (getEtag : HttpResponse → Option String × Option GoError)
    (c : HeadDocumentCommand) (cache : HttpCache) (response : HttpResponse) (url : String)
    (hs : response.StatusCode = 404) :
    HeadDocumentCommand.processResponse getEtag c cache response url =
      (ResponseDisposeHandling.AUTOMATIC, none, { c with Result := none }) := by
  simp [HeadDocumentCommand.processResponse, hs, http_StatusNotModified, http_StatusNotFound,
    ResponseDisposeHandling_AUTOMATIC]

/-- On any other status `processResponse` stores what the header helper
returns and passes its error on. -/
theorem processResponse_of_other
    (getEtag : HttpResponse → Option String × Option GoError)
    (c : HeadDocumentCommand) (cache : HttpCache) (response : HttpResponse) (url : String)
    (h304 : response.StatusCode ≠ 304) (h404 : response.StatusCode ≠ 404) :
    HeadDocumentCommand.processResponse getEtag c cache response url =
      (ResponseDisposeHandling.AUTOMATIC, (getEtag response).2,
        { c with Result := (getEtag response).1 }) := by
  simp [HeadDocumentCommand.processResponse, h304, h404, http_StatusNotModified,
    http_StatusNotFound, ResponseDisposeHandling_AUTOMATIC]

/-! ## Head-document: response processing -/

/-- C1: for a head-document command built with id `i` and change vector `v`, a
response with status 304 makes `processResponse` return no error and the
Automatic disposal mode and leave `Result` equal to `v`, whatever `Result` held
before and whatever the cache, the url and the header helper are. -/
theorem processResponse_notModified_keeps_changeVector
    (getEtag : HttpResponse → Option String × Option GoError)
    (base : RavenCommandBase) (i : String) (v : Option String) (c : HeadDocumentCommand)
    (previous : Option String) (cache : HttpCache) (response : HttpResponse) (url : String)
    (hc : NewHeadDocumentCommand base i v = Outcome.ok c)
    (hs : response.StatusCode = 304) :
    HeadDocumentCommand.processResponse getEtag { c with Result := previous } cache response url =
      (ResponseDisposeHandling.AUTOMATIC, none, { c with Result := v }) := by
  obtain ⟨_, rfl⟩ := (NewHeadDocumentCommand_eq_ok base i v c).1 hc
  rw [processResponse_of_notModified getEtag _ cache response url hs]

/-- Witness for C1: the command for `users/1` with change vector `A:1`, holding
a stale `Result`, on a 304 response. -/
theorem processResponse_notModified_keeps_changeVector_witness :
    NewHeadDocumentCommand ⟨false⟩ "users/1" (some "A:1") =
        Outcome.ok ⟨⟨false⟩, "users/1", some "A:1", none⟩ ∧
      (⟨304, []⟩ : HttpResponse).StatusCode = 304 ∧
      HeadDocumentCommand.processResponse (HttpExtensions_getRequiredEtagHeader "ETag")
          ⟨⟨false⟩, "users/1", some "A:1", some "stale"⟩ ⟨[]⟩ ⟨304, []⟩ "http://a" =
        (ResponseDisposeHandling.AUTOMATIC, none, ⟨⟨false⟩, "users/1", some "A:1", some "A:1"⟩) :=
  ⟨by decide, by decide,
    processResponse_notModified_keeps_changeVector (HttpExtensions_getRequiredEtagHeader "ETag")
      ⟨false⟩ "users/1" (some "A:1") ⟨⟨false⟩, "users/1", some "A:1", none⟩ (some "stale")
      ⟨[]⟩ ⟨304, []⟩ "http://a" (by decide) (by decide)⟩

/-- C2: for every head-document command and every response with status 404,
`processResponse` returns no error (so never `InvalidResponse`) and the
Automatic disposal mode and sets `Result` to nil, for every previous `Result`
and every change vector of the command. -/
theorem processResponse_notFound_clears_result
    (getEtag : HttpResponse → Option String × Option GoError)
    (c : HeadDocumentCommand) (cache : HttpCache) (response : HttpResponse) (url : String)
    (hs : response.StatusCode = 404) :
    HeadDocumentCommand.processResponse getEtag c cache response url =
        (ResponseDisposeHandling.AUTOMATIC, none, { c with Result := none }) ∧
      (HeadDocumentCommand.processResponse getEtag c cache response url).2.1 ≠
        some GoError.InvalidResponse := by
  rw [processResponse_of_notFound getEtag c cache response url hs]
  exact ⟨rfl, by simp⟩

/-- Witness for C2: a command with a change vector and a previous `Result`, on
a 404 response. -/
theorem processResponse_notFound_clears_result_witness :
    (⟨404, []⟩ : HttpResponse).StatusCode = 404 ∧
      HeadDocumentCommand.processResponse (HttpExtensions_getRequiredEtagHeader "ETag")
          ⟨⟨false⟩, "users/1", some "A:1", some "A:0"⟩ ⟨[]⟩ ⟨404, []⟩ "http://a" =
        (ResponseDisposeHandling.AUTOMATIC, none, ⟨⟨false⟩, "users/1", some "A:1", none⟩) :=
  ⟨by decide,
    (processResponse_notFound_clears_result (HttpExtensions_getRequiredEtagHeader "ETag")
      ⟨⟨false⟩, "users/1", some "A:1", some "A:0"⟩ ⟨[]⟩ ⟨404, []⟩ "http://a" (by decide)).1⟩

/-- C3: for every response whose status is neither 304 nor 404,
`processResponse` requires the change-vector header: when the header is present
`Result` becomes its value and no error is returned, when it is absent the call
fails with `InvalidResponse`; the disposal mode is Automatic in both cases. -/
theorem processResponse_other_requires_etag
    (etagHeader : String) (c : HeadDocumentCommand) (cache : HttpCache)
    (response : HttpResponse) (url : String)
    (h304 : response.StatusCode ≠ 304) (h404 : response.StatusCode ≠ 404) :
    (∀ v, response.Header.Lookup etagHeader = some v →
      HeadDocumentCommand.processResponse (HttpExtensions_getRequiredEtagHeader etagHeader)
          c cache response url =
        (ResponseDisposeHandling.AUTOMATIC, none, { c with Result := some v })) ∧
    (response.Header.Lookup etagHeader = none →
      HeadDocumentCommand.processResponse (HttpExtensions_getRequiredEtagHeader etagHeader)
          c cache response url =
        (ResponseDisposeHandling.AUTOMATIC, some GoError.InvalidResponse,
          { c with Result := none })) := by
  rw [processResponse_of_other _ c cache response url h304 h404]
  constructor
  · intro v hv
    simp [HttpExtensions_getRequiredEtagHeader, hv]
  · intro hv
    simp [HttpExtensions_getRequiredEtagHeader, hv]

/-- Witness for C3: a 200 response with the header and a 200 response without
it. -/
theorem processResponse_other_requires_etag_witness :
    (⟨200, [("ETag", "A:2")]⟩ : HttpResponse).StatusCode ≠ 304 ∧
      (⟨200, [("ETag", "A:2")]⟩ : HttpResponse).StatusCode ≠ 404 ∧
      HeadDocumentCommand.processResponse (HttpExtensions_getRequiredEtagHeader "ETag")
          ⟨⟨false⟩, "users/1", some "A:1", none⟩ ⟨[]⟩ ⟨200, [("ETag", "A:2")]⟩ "http://a" =
        (ResponseDisposeHandling.AUTOMATIC, none, ⟨⟨false⟩, "users/1", some "A:1", some "A:2"⟩) ∧
      HeadDocumentCommand.processResponse (HttpExtensions_getRequiredEtagHeader "ETag")
          ⟨⟨false⟩, "users/1", some "A:1", some "A:1"⟩ ⟨[]⟩ ⟨200, []⟩ "http://a" =
        (ResponseDisposeHandling.AUTOMATIC, some GoError.InvalidResponse,
          ⟨⟨false⟩, "users/1", some "A:1", none⟩) :=
  ⟨by decide, by decide,
    (processResponse_other_requires_etag "ETag" ⟨⟨false⟩, "users/1", some "A:1", none⟩ ⟨[]⟩
      ⟨200, [("ETag", "A:2")]⟩ "http://a" (by decide) (by decide)).1 "A:2" (by decide),
    (processResponse_other_requires_etag "ETag" ⟨⟨false⟩, "users/1", some "A:1", some "A:1"⟩ ⟨[]⟩
      ⟨200, []⟩ "http://a" (by decide) (by decide)).2 (by decide)⟩

/-- C10: for a head-document command built without a change vector, a 304
response makes `processResponse` set `Result` to nil with no error, and the
disposal mode, error and command after the call are the same as after a 404
response. -/
theorem processResponse_notModified_without_changeVector_as_notFound
    (getEtag : HttpResponse → Option String × Option GoError)
    (base : RavenCommandBase) (i : String) (c : HeadDocumentCommand)
    (previous : Option String) (cache cache2 : HttpCache)
    (notModified notFound : HttpResponse) (url url2 : String)
    (hc : NewHeadDocumentCommand base i none = Outcome.ok c)
    (h304 : notModified.StatusCode = 304) (h404 : notFound.StatusCode = 404) :
    HeadDocumentCommand.processResponse getEtag { c with Result := previous } cache
        notModified url =
      (ResponseDisposeHandling.AUTOMATIC, none, { c with Result := none }) ∧
    HeadDocumentCommand.processResponse getEtag { c with Result := previous } cache
        notModified url =
      HeadDocumentCommand.processResponse getEtag { c with Result := previous } cache2
        notFound url2 := by
  obtain ⟨_, rfl⟩ := (NewHeadDocumentCommand_eq_ok base i none c).1 hc
  rw [processResponse_of_notModified getEtag _ cache notModified url h304,
    processResponse_of_notFound getEtag _ cache2 notFound url2 h404]
  exact ⟨rfl, rfl⟩

/-- Witness for C10: the command for `users/1` without a change vector, on a
304 and on a 404 response. -/
theorem processResponse_notModified_without_changeVector_as_notFound_witness :
    NewHeadDocumentCommand ⟨false⟩ "users/1" none =
        Outcome.ok ⟨⟨false⟩, "users/1", none, none⟩ ∧
      HeadDocumentCommand.processResponse (HttpExtensions_getRequiredEtagHeader "ETag")
          ⟨⟨false⟩, "users/1", none, some "A:0"⟩ ⟨[]⟩ ⟨304, []⟩ "http://a" =
        HeadDocumentCommand.processResponse (HttpExtensions_getRequiredEtagHeader "ETag")
          ⟨⟨false⟩, "users/1", none, some "A:0"⟩ ⟨[]⟩ ⟨404, []⟩ "http://a" :=
  ⟨by decide,
    (processResponse_notModified_without_changeVector_as_notFound
      (HttpExtensions_getRequiredEtagHeader "ETag") ⟨false⟩ "users/1"
      ⟨⟨false⟩, "users/1", none, none⟩ (some "A:0") ⟨[]⟩ ⟨[]⟩ ⟨304, []⟩ ⟨404, []⟩
      "http://a" "http://a" (by decide) (by decide) (by decide)).2⟩

/-! ## Head-document: request and body -/

/-- C8: for every node, every non-empty id `i` and every optional change
vector `v`, `createRequest` builds a HEAD request whose URL is the node's url,
`/databases/`, the node's database, `/docs?id=` and the escaped id; the request
carries `If-None-Match` exactly when `v` was supplied, with value `v`. The
first part holds for every request builder: the builder receives exactly that
URL, and the header is set on the request it returns. -/
theorem createRequest_head_url_and_header
    (newHttpHead : String → Except GoError HttpRequest)
    (escape : String → String) (base : RavenCommandBase) (node : ServerNode)
    (i : String) (v : Option String) (hi : i ≠ "") :
    ∃ c, NewHeadDocumentCommand base i v = Outcome.ok c ∧
      (∀ request0,
        newHttpHead (node.url ++ "/databases/" ++ node.database ++ "/docs?id=" ++ escape i) =
          Except.ok request0 →
        HeadDocumentCommand.createRequest newHttpHead escape c node =
          Except.ok (match v with
            | some changeVector =>
              { request0 with Header := request0.Header.Set "If-None-Match" changeVector }
            | none => request0)) ∧
      ∃ request, HeadDocumentCommand.createRequest NewHttpHead escape c node =
          Except.ok request ∧
        request.Method = "HEAD" ∧
        request.URL = node.url ++ "/databases/" ++ node.database ++ "/docs?id=" ++ escape i ∧
        request.Header.Lookup "If-None-Match" = v ∧
        request.Header = (match v with
          | some changeVector => [("If-None-Match", changeVector)]
          | none => []) := by
  refine ⟨{ RavenCommandBase := base, _id := i, _changeVector := v, Result := none },
    (NewHeadDocumentCommand_eq_ok base i v _).2 ⟨hi, rfl⟩, ?_, ?_⟩
  · intro request0 h0
    cases v with
    | none =>
      simp [HeadDocumentCommand.createRequest, ServerNode.getUrl, ServerNode.getDatabase, h0]
    | some changeVector =>
      simp [HeadDocumentCommand.createRequest, ServerNode.getUrl, ServerNode.getDatabase, h0]
  · cases v with
    | none =>
      refine ⟨{ Method := "HEAD", URL := node.url ++ "/databases/" ++ node.database ++
        "/docs?id=" ++ escape i, Header := [] }, ?_, rfl, rfl, rfl, rfl⟩
      simp [HeadDocumentCommand.createRequest, NewHttpHead, ServerNode.getUrl,
        ServerNode.getDatabase]
    | some changeVector =>
      refine ⟨{ Method := "HEAD", URL := node.url ++ "/databases/" ++ node.database ++
        "/docs?id=" ++ escape i, Header := [("If-None-Match", changeVector)] },
        ?_, rfl, rfl, ?_, rfl⟩
      · simp [HeadDocumentCommand.createRequest, NewHttpHead, ServerNode.getUrl,
          ServerNode.getDatabase, Header.Set]
      · simp [Header.Lookup, List.lookup]

/-- Witness for C8: the id `users/1` with the change vector `A:1`, the escape
function being the identity. -/
theorem createRequest_head_url_and_header_witness :
    "users/1" ≠ "" ∧
      ∃ request,
        HeadDocumentCommand.createRequest NewHttpHead id
          ⟨⟨false⟩, "users/1", some "A:1", none⟩ ⟨"http://a", "db", "A"⟩ = Except.ok request ∧
        request.Method = "HEAD" ∧
        request.URL = "http://a/databases/db/docs?id=users/1" ∧
        request.Header = [("If-None-Match", "A:1")] := by
  refine ⟨by decide, ?_⟩
  obtain ⟨c, hc, _, request, hr, hm, hu, _, hh⟩ :=
    createRequest_head_url_and_header NewHttpHead id ⟨false⟩ ⟨"http://a", "db", "A"⟩ "users/1"
      (some "A:1") (by decide)
  have hc2 : c = ⟨⟨false⟩, "users/1", some "A:1", none⟩ :=
    ((NewHeadDocumentCommand_eq_ok ⟨false⟩ "users/1" (some "A:1") c).1 hc).2
  subst hc2
  exact ⟨request, hr, hm, by rw [hu]; decide, hh⟩

/-- C9: `HeadDocumentCommand.setResponse` fails with `InvalidResponse` exactly
when the body is non-empty: a non-empty body gives `InvalidResponse` and leaves
`Result` (and the whole command) unchanged, the empty body gives no error; for
both values of `fromCache`. -/
theorem setResponse_head_invalid_iff_nonempty
    (c : HeadDocumentCommand) (response : String) (fromCache : Bool) :
    ((HeadDocumentCommand.setResponse c response fromCache).1 = some GoError.InvalidResponse ↔
        response ≠ "") ∧
      (response ≠ "" →
        HeadDocumentCommand.setResponse c response fromCache =
          (some GoError.InvalidResponse, c, [])) ∧
      (HeadDocumentCommand.setResponse c "" fromCache).1 = none := by
  refine ⟨?_, ?_, ?_⟩
  · by_cases h : response = ""
    · simp [HeadDocumentCommand.setResponse, h]
    · simp [HeadDocumentCommand.setResponse, h, throwInvalidResponse]
  · intro h
    simp [HeadDocumentCommand.setResponse, h, throwInvalidResponse]
  · simp [HeadDocumentCommand.setResponse]

/-- Witness for C9: a body of one space, on a command holding a `Result`. -/
theorem setResponse_head_invalid_iff_nonempty_witness :
    " " ≠ "" ∧
      HeadDocumentCommand.setResponse ⟨⟨false⟩, "users/1", none, some "A:1"⟩ " " true =
        (some GoError.InvalidResponse, ⟨⟨false⟩, "users/1", none, some "A:1"⟩, []) :=
  ⟨by decide,
    (setResponse_head_invalid_iff_nonempty ⟨⟨false⟩, "users/1", none, some "A:1"⟩ " " true).2.1
      (by decide)⟩

/-! ## List database names -/

/-- The function `strconv_Itoa` is the standard decimal rendering of an integer. -/
theorem strconv_Itoa_eq_toString (i : Int) : strconv_Itoa i = toString i := by
  cases i with
  | ofNat n =>
    have h : ¬ (Int.ofNat n < 0) := by simp
    simp only [strconv_Itoa, h, if_false]
    rfl
  | negSucc n =>
    have h : Int.negSucc n < 0 := Int.negSucc_lt_zero n
    simp only [strconv_Itoa, h, if_true]
    rfl

/-- C5: for every list-database-names command and both values of `fromCache`,
`setResponse` on the empty body fails with `InvalidResponse` and leaves
`Result` (and the whole command) as it was; this holds whatever the JSON
decoder does. -/
theorem setResponse_names_empty_body_invalid
    (unmarshal : String → GetDatabaseNamesResult → GetDatabaseNamesResult × Option GoError)
    (c : GetDatabaseNamesCommand) (fromCache : Bool) :
    GetDatabaseNamesCommand.setResponse unmarshal c "" fromCache =
      (some GoError.InvalidResponse, c) := by
  simp [GetDatabaseNamesCommand.setResponse, throwInvalidResponse]

/-- C7: for every node and all integers `start` and `pageSize`, the command of
`NewGetDatabaseNamesOperation start pageSize` (and the one of
`NewGetDatabaseNamesCommand start pageSize`) builds a GET request whose URL is
the node's url, `/databases?start=`, the decimal rendering of `start`,
`&pageSize=`, the decimal rendering of `pageSize` and `&namesOnly=true`. For
every request builder, the builder receives exactly that URL and its result is
returned. -/
theorem createRequest_names_url
    {DocumentConventions : Type} (conventions : DocumentConventions)
    (newHttpGet : String → Except GoError HttpRequest)
    (base : RavenCommandBase) (node : ServerNode) (start pageSize : Int) :
    GetDatabaseNamesCommand.createRequest NewHttpGet
        ((NewGetDatabaseNamesOperation start pageSize).getCommand base conventions) node =
      Except.ok { Method := "GET",
                  URL := node.url ++ "/databases?start=" ++ toString start ++ "&pageSize=" ++
                    toString pageSize ++ "&namesOnly=true",
                  Header := [] } ∧
    GetDatabaseNamesCommand.createRequest NewHttpGet
        (NewGetDatabaseNamesCommand base start pageSize) node =
      Except.ok { Method := "GET",
                  URL := node.url ++ "/databases?start=" ++ toString start ++ "&pageSize=" ++
                    toString pageSize ++ "&namesOnly=true",
                  Header := [] } ∧
    GetDatabaseNamesCommand.createRequest newHttpGet
        ((NewGetDatabaseNamesOperation start pageSize).getCommand base conventions) node =
      newHttpGet (node.url ++ "/databases?start=" ++ toString start ++ "&pageSize=" ++
        toString pageSize ++ "&namesOnly=true") ∧
    GetDatabaseNamesCommand.createRequest newHttpGet
        (NewGetDatabaseNamesCommand base start pageSize) node =
      newHttpGet (node.url ++ "/databases?start=" ++ toString start ++ "&pageSize=" ++
        toString pageSize ++ "&namesOnly=true") := by
  simp [GetDatabaseNamesCommand.createRequest, GetDatabaseNamesOperation.getCommand,
    NewGetDatabaseNamesOperation, NewGetDatabaseNamesCommand, NewHttpGet, ServerNode.getUrl,
    strconv_Itoa_eq_toString]

/-- Witness for C7: start `-5` and page size `10` on the node `http://a`. -/
theorem createRequest_names_url_witness :
    GetDatabaseNamesCommand.createRequest NewHttpGet
        (NewGetDatabaseNamesCommand ⟨false⟩ (-5) 10) ⟨"http://a", "db", "A"⟩ =
      Except.ok { Method := "GET",
                  URL := "http://a/databases?start=-5&pageSize=10&namesOnly=true",
                  Header := [] } := by
  rw [(createRequest_names_url () NewHttpGet ⟨false⟩ ⟨"http://a", "db", "A"⟩ (-5) 10).2.1]
  have hurl : ("http://a" ++ "/databases?start=" ++ toString (-5 : Int) ++ "&pageSize=" ++
      toString (10 : Int) ++ "&namesOnly=true" : String) =
      "http://a/databases?start=-5&pageSize=10&namesOnly=true" := by decide
  exact congrArg (fun u => (Except.ok ⟨"GET", u, []⟩ : Except GoError HttpRequest)) hurl

/-- C4, evaluated on the code: on the body `{}` (no `Databases` key) and on a
body whose `Databases` is `null`, `setResponse` returns no error and stores a
nil `Result`; on a body whose `Databases` is a number it returns the decoder's
type error, not `InvalidResponse`. -/
theorem setResponse_names_missing_Databases_accepted
    (c : GetDatabaseNamesCommand) (fromCache : Bool) :
    GetDatabaseNamesCommand.setResponse json_Unmarshal c "\x7b\x7d" fromCache =
        (none, { c with Result := none }) ∧
      GetDatabaseNamesCommand.setResponse json_Unmarshal c "\x7b\"Databases\": null\x7d"
          fromCache =
        (none, { c with Result := none }) ∧
      GetDatabaseNamesCommand.setResponse json_Unmarshal c "\x7b\"Databases\": 5\x7d"
          fromCache =
        (some GoError.JsonUnmarshalTypeError, c) := by
  have h1 : json_Unmarshal "\x7b\x7d" { Databases := none } = ({ Databases := none }, none) := by
    decide
  have h2 : json_Unmarshal "\x7b\"Databases\": null\x7d" { Databases := none } =
      ({ Databases := none }, none) := by
    decide
  have h3 : json_Unmarshal "\x7b\"Databases\": 5\x7d" { Databases := none } =
      ({ Databases := none }, some GoError.JsonUnmarshalTypeError) := by
    decide
  refine ⟨?_, ?_, ?_⟩
  · have hne : ("\x7b\x7d" == "") = false := by decide
    simp only [GetDatabaseNamesCommand.setResponse, hne, h1]
    rfl
  · have hne : ("\x7b\"Databases\": null\x7d" == "") = false := by decide
    simp only [GetDatabaseNamesCommand.setResponse, hne, h2]
    rfl
  · have hne : ("\x7b\"Databases\": 5\x7d" == "") = false := by decide
    simp only [GetDatabaseNamesCommand.setResponse, hne, h3]
    rfl

/-! ## Reset index -/

/-- C6, against its claim of a typed error: with the empty index name both
constructors panic and do not return a `ValidationError`. -/
theorem NewResetIndex_empty_is_not_ValidationError :
    NewResetIndexOperation "" ≠ Outcome.error GoError.ValidationError ∧
      NewResetIndexCommand ⟨false⟩ "" ≠ Outcome.error GoError.ValidationError ∧
      NewResetIndexOperation "" = Outcome.panic "indexName cannot be empty" ∧
      NewResetIndexCommand ⟨false⟩ "" = Outcome.panic "indexName cannot be empty" := by
  decide

/-- C6, amended: with the empty index name both constructors abort with the
panic `indexName cannot be empty` and yield no operation or command; a command
that a constructor or `getCommand` returned has a non-empty name, so
`createRequest` is never reached for an empty name; for every non-empty name
both constructors succeed and store exactly that name. -/
theorem NewResetIndex_guard
    {DocumentConventions : Type} (conventions : DocumentConventions) (base : RavenCommandBase) :
    NewResetIndexOperation "" = Outcome.panic "indexName cannot be empty" ∧
      NewResetIndexCommand base "" = Outcome.panic "indexName cannot be empty" ∧
      (∀ o, NewResetIndexOperation "" ≠ Outcome.ok o) ∧
      (∀ c, NewResetIndexCommand base "" ≠ Outcome.ok c) ∧
      (∀ name c, NewResetIndexCommand base name = Outcome.ok c → c._indexName ≠ "") ∧
      (∀ name o c o2, NewResetIndexOperation name = Outcome.ok o →
        o.getCommand base conventions = Outcome.ok (c, o2) → c._indexName ≠ "") ∧
      (∀ name, name ≠ "" →
        NewResetIndexOperation name = Outcome.ok { _indexName := name, Command := none } ∧
        NewResetIndexCommand base name =
          Outcome.ok { RavenCommandBase := base, _indexName := name }) := by
  refine ⟨rfl, rfl, ?_, ?_, ?_, ?_, ?_⟩
  · intro o h
    exact ((NewResetIndexOperation_eq_ok "" o).1 h).1 rfl
  · intro c h
    exact ((NewResetIndexCommand_eq_ok base "" c).1 h).1 rfl
  · intro name c h
    obtain ⟨hn, rfl⟩ := (NewResetIndexCommand_eq_ok base name c).1 h
    exact hn
  · intro name o c o2 ho hg
    obtain ⟨hn, rfl⟩ := (NewResetIndexOperation_eq_ok name o).1 ho
    have hcmd : NewResetIndexCommand base name =
        Outcome.ok { RavenCommandBase := base, _indexName := name } :=
      (NewResetIndexCommand_eq_ok base name _).2 ⟨hn, rfl⟩
    simp only [ResetIndexOperation.getCommand, hcmd, Outcome.bind, Outcome.ok.injEq,
      Prod.mk.injEq] at hg
    rw [← hg.1]
    exact hn
  · intro name hn
    exact ⟨(NewResetIndexOperation_eq_ok name _).2 ⟨hn, rfl⟩,
      (NewResetIndexCommand_eq_ok base name _).2 ⟨hn, rfl⟩⟩

/-- Witness for C6: the index name `Users/ByName`. -/
theorem NewResetIndex_guard_witness :
    "Users/ByName" ≠ "" ∧
      NewResetIndexOperation "Users/ByName" =
        Outcome.ok { _indexName := "Users/ByName", Command := none } ∧
      NewResetIndexCommand ⟨true⟩ "Users/ByName" =
        Outcome.ok { RavenCommandBase := ⟨true⟩, _indexName := "Users/ByName" } :=
  ⟨by decide, (NewResetIndex_guard () ⟨true⟩).2.2.2.2.2.2 "Users/ByName" (by decide)⟩

end Ravendb
